import Mathlib

/-!
Verification of `remove_white_background.py`: a single-pass utility that
turns near-white pixels of an image transparent.

The embedding follows the source closely:

* a `Pixel` is one RGBA pixel (four 8-bit channels, modelled as `Nat`
  with an explicit `Pixel.valid` bound where 8-bitness matters);
* an `Image` is the numpy array `data`: a grid (list of rows) of pixels;
* `InputImage` models the three channel layouts `PIL.Image.open` can
  yield (grayscale `L`, `RGB`, `RGBA`), and `toRGBA` models
  `img.convert('RGBA')` guarded by `if img.mode != 'RGBA'`;
* `white_pixels` is the boolean mask
  `(data[:,:,0] > threshold) & (data[:,:,1] > threshold) & (data[:,:,2] > threshold)`;
* `applyMask` is the fancy-indexing assignment `data[white_pixels, 3] = 0`;
* `remove_white_background` composes them on the decoded grid, and
  `mask_background` is the whole pipeline from a decoded input image.

The threshold is an `Int` because the script accepts any Python integer,
including negative ones.
-/

/-- One RGBA pixel: red, green, blue, alpha channels. -/
structure Pixel where
  r : Nat
  g : Nat
  b : Nat
  a : Nat
deriving DecidableEq, Repr

/-- The pixel's channels are 8-bit values (numpy `uint8`). -/
def Pixel.valid (p : Pixel) : Prop :=
  p.r ≤ 255 ∧ p.g ≤ 255 ∧ p.b ≤ 255 ∧ p.a ≤ 255

instance (p : Pixel) : Decidable p.valid := by
  unfold Pixel.valid; infer_instance

/-- The numpy array `data`: a grid of pixels, one list per row. -/
abbrev Image := List (List Pixel)

/-- Every pixel of the grid is 8-bit. -/
def Image.valid (data : Image) : Prop :=
  ∀ row ∈ data, ∀ p ∈ row, p.valid

/-- A decoded source image in one of the channel layouts the script can
receive: grayscale (`L`), `RGB`, or `RGBA`. -/
inductive InputImage where
  | gray (grid : List (List Nat))
  | rgb (grid : List (List (Nat × Nat × Nat)))
  | rgba (grid : Image)
deriving Repr

/-- Number of channels of the decoded input (1, 3, or 4). -/
def InputImage.channels : InputImage → Nat
  | .gray _ => 1
  | .rgb _ => 3
  | .rgba _ => 4

/-- Row lengths of the decoded input grid (its shape). -/
def InputImage.shape : InputImage → List Nat
  | .gray grid => grid.map List.length
  | .rgb grid => grid.map List.length
  | .rgba grid => grid.map List.length

/-- `if img.mode != 'RGBA': img = img.convert('RGBA')`: grayscale and RGB
inputs are expanded to four channels with a fully opaque alpha; an input
that is already RGBA is left untouched. -/
def toRGBA : InputImage → Image
  | .gray grid => grid.map (fun row => row.map (fun v => ⟨v, v, v, 255⟩))
  | .rgb grid => grid.map (fun row => row.map (fun c => ⟨c.1, c.2.1, c.2.2, 255⟩))
  | .rgba grid => grid

/-- The boolean mask
`(data[:,:,0] > threshold) & (data[:,:,1] > threshold) & (data[:,:,2] > threshold)`
evaluated at one pixel. -/
def isWhite (threshold : Int) (p : Pixel) : Bool :=
  decide ((p.r : Int) > threshold) && decide ((p.g : Int) > threshold) &&
    decide ((p.b : Int) > threshold)

/-- The mask grid `white_pixels`, same shape as `data`. -/
def white_pixels (threshold : Int) (data : Image) : List (List Bool) :=
  data.map (fun row => row.map (isWhite threshold))

/-- Set the alpha channel of a pixel to 0. -/
def zeroAlpha (p : Pixel) : Pixel :=
  { p with a := 0 }

/-- The fancy-indexing assignment `data[white_pixels, 3] = 0`: zero the
alpha of exactly the pixels the mask marks. -/
def applyMask (mask : List (List Bool)) (data : Image) : Image :=
  List.zipWith (fun mrow row =>
    List.zipWith (fun m p => if m then zeroAlpha p else p) mrow row) mask data

/-- The core of `remove_white_background` on the decoded RGBA grid:
compute the white mask and zero the alpha of the masked pixels. -/
def remove_white_background (threshold : Int) (data : Image) : Image :=
  applyMask (white_pixels threshold data) data

/-- The whole transform from a decoded input image: normalize to RGBA,
then mask. -/
def mask_background (threshold : Int) (img : InputImage) : Image :=
  remove_white_background threshold (toRGBA img)

/-- The entry at row `i`, column `j` of a grid, if it exists. -/
def gridAt {α : Type} (grid : List (List α)) (i j : Nat) : Option α :=
  grid[i]?.bind (fun row => row[j]?)

/-- The pixel at row `i`, column `j` of an image, if it exists. -/
def pixelAt (data : Image) (i j : Nat) : Option Pixel :=
  gridAt data i j

/-- Pointwise form of the transform, used to relate the vectorized
definitions to per-pixel statements. -/
def maskPixel (threshold : Int) (p : Pixel) : Pixel :=
  if isWhite threshold p then zeroAlpha p else p

lemma zipWith_map_left_self {α β γ : Type} (f : α → β) (g : β → α → γ)
    (l : List α) : List.zipWith g (l.map f) l = l.map (fun x => g (f x) x) := by
  induction l with
  | nil => rfl
  | cons a l ih => simp [ih]

/-- The vectorized mask-and-assign equals the per-pixel map. -/
lemma remove_white_background_eq_map (threshold : Int) (data : Image) :
    remove_white_background threshold data =
      data.map (fun row => row.map (maskPixel threshold)) := by
  unfold remove_white_background applyMask white_pixels
  rw [zipWith_map_left_self]
  refine List.map_congr_left (fun row _ => ?_)
  rw [zipWith_map_left_self]
  rfl

lemma gridAt_map {α β : Type} (f : α → β) (grid : List (List α)) (i j : Nat) :
    gridAt (grid.map (fun row => row.map f)) i j = (gridAt grid i j).map f := by
  unfold gridAt
  rw [List.getElem?_map]
  cases grid[i]? with
  | none => rfl
  | some row => simp [List.getElem?_map]

lemma pixelAt_map (f : Pixel → Pixel) (data : Image) (i j : Nat) :
    pixelAt (data.map (fun row => row.map f)) i j = (pixelAt data i j).map f :=
  gridAt_map f data i j

lemma pixelAt_remove (threshold : Int) (data : Image) (i j : Nat) :
    pixelAt (remove_white_background threshold data) i j =
      (pixelAt data i j).map (maskPixel threshold) := by
  rw [remove_white_background_eq_map, pixelAt_map]

lemma maskPixel_of_white {threshold : Int} {p : Pixel}
    (h : (p.r : Int) > threshold ∧ (p.g : Int) > threshold ∧ (p.b : Int) > threshold) :
    maskPixel threshold p = zeroAlpha p := by
  unfold maskPixel isWhite
  simp [h.1, h.2.1, h.2.2]

lemma maskPixel_of_not_white {threshold : Int} {p : Pixel}
    (h : ¬ ((p.r : Int) > threshold ∧ (p.g : Int) > threshold ∧ (p.b : Int) > threshold)) :
    maskPixel threshold p = p := by
  unfold maskPixel isWhite
  have : ¬ (decide ((p.r : Int) > threshold) && decide ((p.g : Int) > threshold) &&
      decide ((p.b : Int) > threshold)) = true := by
    intro hb
    simp only [Bool.and_eq_true, decide_eq_true_eq] at hb
    exact h ⟨hb.1.1, hb.1.2, hb.2⟩
  simp [this]

instance (data : Image) : Decidable data.valid := by
  unfold Image.valid; infer_instance

/-- Channel values of the decoded input are 8-bit. -/
def InputImage.valid : InputImage → Prop
  | .gray grid => ∀ row ∈ grid, ∀ v ∈ row, v ≤ 255
  | .rgb grid => ∀ row ∈ grid, ∀ c ∈ row, c.1 ≤ 255 ∧ c.2.1 ≤ 255 ∧ c.2.2 ≤ 255
  | .rgba grid => grid.valid

instance (img : InputImage) : Decidable img.valid := by
  unfold InputImage.valid
  cases img <;> infer_instance

lemma maskPixel_r (threshold : Int) (p : Pixel) : (maskPixel threshold p).r = p.r := by
  unfold maskPixel zeroAlpha; split <;> rfl

lemma maskPixel_g (threshold : Int) (p : Pixel) : (maskPixel threshold p).g = p.g := by
  unfold maskPixel zeroAlpha; split <;> rfl

lemma maskPixel_b (threshold : Int) (p : Pixel) : (maskPixel threshold p).b = p.b := by
  unfold maskPixel zeroAlpha; split <;> rfl

lemma isWhite_maskPixel (threshold : Int) (p : Pixel) :
    isWhite threshold (maskPixel threshold p) = isWhite threshold p := by
  unfold isWhite
  rw [maskPixel_r, maskPixel_g, maskPixel_b]

lemma isWhite_zeroAlpha (threshold : Int) (p : Pixel) :
    isWhite threshold (zeroAlpha p) = isWhite threshold p := rfl

lemma maskPixel_idem (threshold : Int) (p : Pixel) :
    maskPixel threshold (maskPixel threshold p) = maskPixel threshold p := by
  unfold maskPixel
  by_cases h : isWhite threshold p = true
  · simp [h, isWhite_zeroAlpha, zeroAlpha]
  · simp [h]

lemma maskPixel_valid (threshold : Int) (p : Pixel) (h : p.valid) :
    (maskPixel threshold p).valid := by
  unfold maskPixel zeroAlpha
  obtain ⟨h1, h2, h3, h4⟩ := h
  split
  · exact ⟨h1, h2, h3, Nat.zero_le 255⟩
  · exact ⟨h1, h2, h3, h4⟩

lemma toRGBA_alpha_255 (img : InputImage) (h : img.channels < 4) (i j : Nat)
    (p : Pixel) (hp : pixelAt (toRGBA img) i j = some p) : p.a = 255 := by
  cases img with
  | gray grid =>
      unfold pixelAt toRGBA at hp
      rw [gridAt_map] at hp
      obtain ⟨v, _, hv⟩ := Option.map_eq_some'.mp hp
      rw [← hv]
  | rgb grid =>
      unfold pixelAt toRGBA at hp
      rw [gridAt_map] at hp
      obtain ⟨v, _, hv⟩ := Option.map_eq_some'.mp hp
      rw [← hv]
  | rgba grid =>
      simp [InputImage.channels] at h

lemma toRGBA_shape (img : InputImage) :
    (toRGBA img).map List.length = img.shape := by
  cases img with
  | gray grid => simp [toRGBA, InputImage.shape]
  | rgb grid => simp [toRGBA, InputImage.shape]
  | rgba grid => rfl

lemma toRGBA_valid (img : InputImage) (h : img.valid) : (toRGBA img).valid := by
  cases img with
  | gray grid =>
      intro row hrow p hp
      simp only [toRGBA, List.mem_map] at hrow
      obtain ⟨r0, hr0, hmap⟩ := hrow
      rw [← hmap] at hp
      simp only [List.mem_map] at hp
      obtain ⟨v, hv, hvp⟩ := hp
      have := h r0 hr0 v hv
      rw [← hvp]
      exact ⟨this, this, this, le_refl 255⟩
  | rgb grid =>
      intro row hrow p hp
      simp only [toRGBA, List.mem_map] at hrow
      obtain ⟨r0, hr0, hmap⟩ := hrow
      rw [← hmap] at hp
      simp only [List.mem_map] at hp
      obtain ⟨c, hc, hcp⟩ := hp
      obtain ⟨h1, h2, h3⟩ := h r0 hr0 c hc
      rw [← hcp]
      exact ⟨h1, h2, h3, le_refl 255⟩
  | rgba grid => exact h

lemma map_eq_self_of_mem {α : Type} (l : List α) (f : α → α)
    (h : ∀ x ∈ l, f x = x) : l.map f = l := by
  induction l with
  | nil => rfl
  | cons a l ih =>
      simp only [List.map_cons, List.cons.injEq]
      exact ⟨h a (List.mem_cons_self a l), ih (fun x hx => h x (List.mem_cons_of_mem a hx))⟩

lemma isWhite_false_of_ge (threshold : Int) (p : Pixel) (hp : p.valid)
    (ht : threshold ≥ 255) : isWhite threshold p = false := by
  unfold isWhite
  have hr : ¬ ((p.r : Int) > threshold) := by
    have : (p.r : Int) ≤ 255 := by exact_mod_cast hp.1
    omega
  simp [hr]

lemma isWhite_true_of_neg (threshold : Int) (p : Pixel)
    (ht : threshold < 0) : isWhite threshold p = true := by
  unfold isWhite
  have hr : (p.r : Int) > threshold := lt_of_lt_of_le ht (Int.ofNat_nonneg p.r)
  have hg : (p.g : Int) > threshold := lt_of_lt_of_le ht (Int.ofNat_nonneg p.g)
  have hb : (p.b : Int) > threshold := lt_of_lt_of_le ht (Int.ofNat_nonneg p.b)
  simp [hr, hg, hb]

/-- The error taxonomy of the spec. The script itself raises whatever the
imaging library raises; the spec names the decode-stage failure
`DecodeError`, the encode-stage failure `EncodeError`, and anything else
`ProcessingError`. -/
inductive MaskError where
  | decodeError
  | encodeError
  | processingError
deriving DecidableEq, Repr

/-- Observable outcome of one call to `remove_white_background`:
whether it returned or raised, and what (if anything) it wrote to the
output path. -/
structure RunOutcome where
  result : Except MaskError Unit
  written : Option Image
deriving Repr

/-- Modelled from the spec: the decode step (`Image.open`, library code
outside this repository) either yields a decoded image or fails. A
decode failure raises before any processing, so `new_img.save` is never
reached and nothing is written; on success the transformed grid is
written to the output path. -/
def run_remove_white_background (decoded : Option InputImage)
    (threshold : Int) : RunOutcome :=
  match decoded with
  | none => { result := Except.error MaskError.decodeError, written := none }
  | some img =>
      { result := Except.ok (), written := some (mask_background threshold img) }

/-- Observable outcome of the `__main__` block: whether the `except`
branch ran, and the process exit status. -/
structure MainOutcome where
  errored : Bool
  exitCode : Nat
deriving Repr

/-- The `__main__` block: call the transform with threshold 240 inside
`try`, catch every `Exception`, print, and fall off the end of the
script — so the interpreter exits with status 0 on every path. -/
def main_entry (decoded : Option InputImage) : MainOutcome :=
  match (run_remove_white_background decoded 240).result with
  | Except.error _ => { errored := true, exitCode := 0 }
  | Except.ok _ => { errored := false, exitCode := 0 }

/-- C1 counterexample: an input that is already RGBA keeps its original
alpha on non-background pixels — the code converts to RGBA (forcing
alpha 255) only when the mode is not `RGBA`. A black pixel with alpha
100 is not background at threshold 240, yet its output alpha is 100,
not 255. -/
theorem C1_counterexample :
    pixelAt (mask_background 240 (InputImage.rgba [[⟨0, 0, 0, 100⟩]])) 0 0 =
        some ⟨0, 0, 0, 100⟩ ∧
      ¬ ((0 : Int) > 240 ∧ (0 : Int) > 240 ∧ (0 : Int) > 240) ∧
      (100 : Nat) ≠ 255 := by
  refine ⟨by decide, by decide, by decide⟩

/-- C1 (amended): every pixel whose R, G, B are all strictly greater
than the threshold gets alpha 0; every other pixel is output unchanged,
keeping its normalized alpha — which is 255 when the input had fewer
than 4 channels, and the original alpha when the input was already RGBA
(no forcing happens in that case). -/
theorem C1_mask_alpha (threshold : Int) (img : InputImage) (i j : Nat)
    (p : Pixel) (h : pixelAt (toRGBA img) i j = some p) :
    (((p.r : Int) > threshold ∧ (p.g : Int) > threshold ∧ (p.b : Int) > threshold) →
      pixelAt (mask_background threshold img) i j = some (zeroAlpha p)) ∧
    (¬ ((p.r : Int) > threshold ∧ (p.g : Int) > threshold ∧ (p.b : Int) > threshold) →
      pixelAt (mask_background threshold img) i j = some p) ∧
    (img.channels < 4 → p.a = 255) := by
  refine ⟨fun hw => ?_, fun hw => ?_, fun hc => toRGBA_alpha_255 img hc i j p h⟩
  · unfold mask_background
    rw [pixelAt_remove, h, Option.map_some', maskPixel_of_white hw]
  · unfold mask_background
    rw [pixelAt_remove, h, Option.map_some', maskPixel_of_not_white hw]

/-- C1 witness: a grayscale input pixel of value 30 at threshold 240 is
normalized to alpha 255 and output unchanged. -/
theorem C1_mask_alpha_witness :
    pixelAt (mask_background 240 (InputImage.gray [[30]])) 0 0 =
      some ⟨30, 30, 30, 255⟩ :=
  (C1_mask_alpha 240 (InputImage.gray [[30]]) 0 0 ⟨30, 30, 30, 255⟩
    (by decide)).2.1 (by decide)

/-- C2: a pixel is background exactly when R, G and B are all strictly
greater than the threshold (alpha plays no part); a background pixel's
alpha becomes 0, any other pixel is output untouched, and in particular
a pixel with all three color channels equal to the threshold is output
untouched. -/
theorem C2_classification (threshold : Int) (data : Image) (i j : Nat)
    (p : Pixel) (h : pixelAt data i j = some p) :
    (((p.r : Int) > threshold ∧ (p.g : Int) > threshold ∧ (p.b : Int) > threshold) →
      pixelAt (remove_white_background threshold data) i j = some (zeroAlpha p)) ∧
    (¬ ((p.r : Int) > threshold ∧ (p.g : Int) > threshold ∧ (p.b : Int) > threshold) →
      pixelAt (remove_white_background threshold data) i j = some p) ∧
    ((p.r : Int) = threshold ∧ (p.g : Int) = threshold ∧ (p.b : Int) = threshold →
      pixelAt (remove_white_background threshold data) i j = some p) := by
  refine ⟨fun hw => ?_, fun hw => ?_, fun heq => ?_⟩
  · rw [pixelAt_remove, h, Option.map_some', maskPixel_of_white hw]
  · rw [pixelAt_remove, h, Option.map_some', maskPixel_of_not_white hw]
  · rw [pixelAt_remove, h, Option.map_some',
      maskPixel_of_not_white (by rw [heq.1]; exact fun hc => lt_irrefl threshold hc.1)]

/-- C2 witness: at threshold 240, the pixel (250,250,250,255) becomes
transparent and the boundary pixel (240,240,240,255) is untouched. -/
theorem C2_classification_witness :
    pixelAt (remove_white_background 240
        [[⟨250, 250, 250, 255⟩, ⟨240, 240, 240, 255⟩]]) 0 0 =
      some ⟨250, 250, 250, 0⟩ ∧
    pixelAt (remove_white_background 240
        [[⟨250, 250, 250, 255⟩, ⟨240, 240, 240, 255⟩]]) 0 1 =
      some ⟨240, 240, 240, 255⟩ := by
  constructor
  · exact (C2_classification 240 [[⟨250, 250, 250, 255⟩, ⟨240, 240, 240, 255⟩]]
      0 0 ⟨250, 250, 250, 255⟩ (by decide)).1 (by decide)
  · exact (C2_classification 240 [[⟨250, 250, 250, 255⟩, ⟨240, 240, 240, 255⟩]]
      0 1 ⟨240, 240, 240, 255⟩ (by decide)).2.2 (by decide)

/-- C3: the transform touches only the alpha channel — the output pixel
at any position has exactly the input pixel's R, G and B. -/
theorem C3_color_preservation (threshold : Int) (data : Image) (i j : Nat)
    (p : Pixel) (h : pixelAt data i j = some p) :
    ∃ q : Pixel, pixelAt (remove_white_background threshold data) i j = some q ∧
      q.r = p.r ∧ q.g = p.g ∧ q.b = p.b := by
  refine ⟨maskPixel threshold p, ?_, maskPixel_r _ _, maskPixel_g _ _, maskPixel_b _ _⟩
  rw [pixelAt_remove, h, Option.map_some']

/-- C3 witness: a white pixel keeps its RGB even as its alpha is
zeroed. -/
theorem C3_color_preservation_witness :
    ∃ q : Pixel, pixelAt (remove_white_background 240 [[⟨255, 255, 255, 10⟩]]) 0 0 =
        some q ∧ q.r = 255 ∧ q.g = 255 ∧ q.b = 255 :=
  C3_color_preservation 240 [[⟨255, 255, 255, 10⟩]] 0 0 ⟨255, 255, 255, 10⟩ (by decide)

/-- C4: an input with fewer than 4 channels is expanded to a 4-channel
grid of the same shape whose every pixel has a fully opaque alpha
(255). -/
theorem C4_normalize (img : InputImage) (h : img.channels < 4) :
    (toRGBA img).map List.length = img.shape ∧
      ∀ i j p, pixelAt (toRGBA img) i j = some p → p.a = 255 :=
  ⟨toRGBA_shape img, fun i j p hp => toRGBA_alpha_255 img h i j p hp⟩

/-- C4 witness: a 1×1 grayscale image normalizes shape-preservingly and
the synthesized pixel is opaque. -/
theorem C4_normalize_witness :
    (toRGBA (InputImage.gray [[5]])).map List.length =
        (InputImage.gray [[5]]).shape ∧
      (Pixel.mk 5 5 5 255).a = 255 :=
  ⟨(C4_normalize (InputImage.gray [[5]]) (by decide)).1,
    (C4_normalize (InputImage.gray [[5]]) (by decide)).2 0 0 ⟨5, 5, 5, 255⟩ (by decide)⟩

/-- C5: on an 8-bit image, a threshold ≥ 255 classifies no pixel as
background (the output equals the input), and a negative threshold
classifies every pixel as background (every alpha is zeroed). -/
theorem C5_degenerate_thresholds (threshold : Int) (data : Image)
    (hv : data.valid) :
    (threshold ≥ 255 → remove_white_background threshold data = data) ∧
    (threshold < 0 → remove_white_background threshold data =
      data.map (fun row => row.map zeroAlpha)) := by
  constructor
  · intro ht
    rw [remove_white_background_eq_map]
    refine map_eq_self_of_mem data _ (fun row hrow => ?_)
    refine map_eq_self_of_mem row _ (fun p hp => ?_)
    unfold maskPixel
    rw [isWhite_false_of_ge threshold p (hv row hrow p hp) ht]
    simp
  · intro ht
    rw [remove_white_background_eq_map]
    refine List.map_congr_left (fun row _ => ?_)
    refine List.map_congr_left (fun p _ => ?_)
    unfold maskPixel
    rw [isWhite_true_of_neg threshold p ht]
    simp

/-- C5 witness: even a pure-white pixel survives threshold 255, and a
black pixel is made transparent at threshold -1. -/
theorem C5_degenerate_thresholds_witness :
    remove_white_background 255 [[⟨255, 255, 255, 7⟩]] = [[⟨255, 255, 255, 7⟩]] ∧
      remove_white_background (-1) [[⟨0, 0, 0, 9⟩]] =
        [[⟨0, 0, 0, 9⟩]].map (fun row => row.map zeroAlpha) :=
  ⟨(C5_degenerate_thresholds 255 [[⟨255, 255, 255, 7⟩]] (by decide)).1 (by decide),
    (C5_degenerate_thresholds (-1) [[⟨0, 0, 0, 9⟩]] (by decide)).2 (by decide)⟩

/-- C6: the output grid has the input's shape (same height, same row
widths), every output pixel carries the 4 RGBA channels, and on an
8-bit input every output channel is again 8-bit. -/
theorem C6_dimensions (threshold : Int) (img : InputImage) :
    (mask_background threshold img).map List.length = img.shape ∧
      (img.valid → (mask_background threshold img).valid) := by
  constructor
  · unfold mask_background
    rw [remove_white_background_eq_map]
    simp only [List.map_map, Function.comp_def, List.length_map]
    exact toRGBA_shape img
  · intro hv
    unfold mask_background
    rw [remove_white_background_eq_map]
    intro row hrow p hp
    simp only [List.mem_map] at hrow
    obtain ⟨r0, hr0, hmap⟩ := hrow
    rw [← hmap] at hp
    simp only [List.mem_map] at hp
    obtain ⟨p0, hp0, hpp⟩ := hp
    rw [← hpp]
    exact maskPixel_valid threshold p0 (toRGBA_valid img hv r0 hr0 p0 hp0)

/-- C6 witness: a 1×1 RGB input yields a same-shape, 8-bit RGBA
output. -/
theorem C6_dimensions_witness :
    (mask_background 240 (InputImage.rgb [[(1, 2, 3)]])).map List.length =
        (InputImage.rgb [[(1, 2, 3)]]).shape ∧
      (mask_background 240 (InputImage.rgb [[(1, 2, 3)]])).valid :=
  ⟨(C6_dimensions 240 (InputImage.rgb [[(1, 2, 3)]])).1,
    (C6_dimensions 240 (InputImage.rgb [[(1, 2, 3)]])).2 (by decide)⟩

/-- C7: the transform is idempotent — feeding its RGBA output back in
with the same threshold reproduces that output exactly. -/
theorem C7_idempotent (threshold : Int) (img : InputImage) :
    mask_background threshold (InputImage.rgba (mask_background threshold img)) =
      mask_background threshold img := by
  have h : ∀ data : Image, remove_white_background threshold
      (remove_white_background threshold data) =
        remove_white_background threshold data := by
    intro data
    rw [remove_white_background_eq_map, remove_white_background_eq_map,
      List.map_map]
    refine List.map_congr_left (fun row _ => ?_)
    simp only [Function.comp, List.map_map]
    exact List.map_congr_left (fun p _ => maskPixel_idem threshold p)
  exact h (toRGBA img)

/-- C8: when decoding fails (for instance the input path does not
exist), the call fails with a DecodeError and nothing at all is written
to the output path. -/
theorem C8_decode_failure (threshold : Int) :
    (run_remove_white_background none threshold).result =
        Except.error MaskError.decodeError ∧
      (run_remove_white_background none threshold).written = none :=
  ⟨rfl, rfl⟩

/-- C9: the transform is deterministic — two runs on equal inputs with
equal thresholds produce equal pixel grids. -/
theorem C9_deterministic (t1 t2 : Int) (img1 img2 : InputImage)
    (ht : t1 = t2) (himg : img1 = img2) :
    mask_background t1 img1 = mask_background t2 img2 := by
  rw [ht, himg]

/-- C9 witness: the property at a concrete image and threshold. -/
theorem C9_deterministic_witness :
    mask_background 240 (InputImage.rgba [[⟨250, 250, 250, 255⟩]]) =
      mask_background 240 (InputImage.rgba [[⟨250, 250, 250, 255⟩]]) :=
  C9_deterministic 240 240 (InputImage.rgba [[⟨250, 250, 250, 255⟩]])
    (InputImage.rgba [[⟨250, 250, 250, 255⟩]]) rfl rfl

/-- C10: the `__main__` block catches every exception from the
transform and the process exits with status 0 on every path, so the
exit code never distinguishes success from failure; the `except` branch
runs exactly when the transform failed. -/
theorem C10_exit_status (decoded : Option InputImage) :
    (main_entry decoded).exitCode = 0 ∧
      ((run_remove_white_background decoded 240).result =
          Except.error MaskError.decodeError →
        (main_entry decoded).errored = true) := by
  cases decoded with
  | none => exact ⟨rfl, fun _ => rfl⟩
  | some img => exact ⟨rfl, fun h => nomatch h⟩

/-- C10 witness: with a failing decode the process still exits 0 and
the error branch ran. -/
theorem C10_exit_status_witness :
    (main_entry none).exitCode = 0 ∧ (main_entry none).errored = true :=
  ⟨(C10_exit_status none).1, (C10_exit_status none).2 rfl⟩
